import Mathlib

/-!
Verification development for the "Student Command Center" application
(`src/app.py`).  The Python helpers are shallowly embedded as Lean
functions: strings are modelled as `String` / `List Char`, third-party
calls (Groq transport, PyPDF2 page extraction, FPDF rendering) are
modelled as explicit oracle data, and Python exceptions are modelled
with `Except`.
-/

deriving instance DecidableEq for Except

namespace SCC

/-! ### Character classes

`isPySpace` models the characters matched by Python's `str.strip()` and
the regex class `\s` (ASCII range); `isBulletChar` models the character
class `[\*\-\•\·\→\▶\»]` of the first substitution in `clean_step`.
-/

def isPySpace (c : Char) : Bool :=
  decide (c = ' ' ∨ c = '\t' ∨ c = '\n' ∨ c = '\r' ∨ c = '\x0b' ∨ c = '\x0c')

def isBulletChar (c : Char) : Bool :=
  decide (c = '*' ∨ c = '-' ∨ c = '•' ∨ c = '·' ∨ c = '→' ∨ c = '▶' ∨ c = '»')

/-! ### Python `str.strip()` -/

def lstrip (l : List Char) : List Char := l.dropWhile isPySpace

def rstrip (l : List Char) : List Char := (l.reverse.dropWhile isPySpace).reverse

def pyStrip (l : List Char) : List Char := rstrip (lstrip l)

def pyStripStr (s : String) : String := String.mk (pyStrip s.data)

/-! ### `clean_step` (src/app.py lines 64-71)

Each `re.sub` has a pattern anchored at `^` without `re.MULTILINE`, so a
single call removes at most one match, located at the very start of the
string.  The three substitutions run in order (bullets, then `N.`
numbering, then `(N)` numbering) and the result is stripped.
-/

/-- `re.sub(r"^[\*\-\•\·\→\▶\»]+\s*", "", step)`: if the line starts with a
bullet character, drop the maximal run of bullet characters and then the
maximal run of whitespace. -/
def subBullet (l : List Char) : List Char :=
  match l with
  | [] => []
  | c :: _ => if isBulletChar c then (l.dropWhile isBulletChar).dropWhile isPySpace else l

/-- `re.sub(r"^\d+\.\s*", "", step)`: if the line starts with a digit run
followed by a dot, drop them and the following whitespace run. -/
def subNum (l : List Char) : List Char :=
  if (l.takeWhile Char.isDigit).isEmpty then l
  else
    match l.drop (l.takeWhile Char.isDigit).length with
    | c :: rest => if c = '.' then rest.dropWhile isPySpace else l
    | [] => l

/-- `re.sub(r"^\(\d+\)\s*", "", step)`: if the line starts with `(`, a
digit run and `)`, drop them and the following whitespace run. -/
def subParen (l : List Char) : List Char :=
  match l with
  | [] => []
  | c :: rest =>
    if c = '(' then
      if (rest.takeWhile Char.isDigit).isEmpty then l
      else
        match rest.drop (rest.takeWhile Char.isDigit).length with
        | c2 :: rest2 => if c2 = ')' then rest2.dropWhile isPySpace else l
        | [] => l
    else l

def cleanStepL (l : List Char) : List Char := pyStrip (subParen (subNum (subBullet l)))

/-- `clean_step` from src/app.py: the three anchored substitutions in
order, followed by `.strip()`. -/
def clean_step (s : String) : String := String.mk (cleanStepL s.data)

/-! ### Match predicates for the three patterns -/

/-- The line matches `^[\*\-\•\·\→\▶\»]+\s*`. -/
def hasBulletMark (l : List Char) : Bool :=
  match l with
  | c :: _ => isBulletChar c
  | [] => false

/-- The line matches `^\d+\.\s*`. -/
def hasNumMark (l : List Char) : Bool :=
  !(l.takeWhile Char.isDigit).isEmpty &&
    (match l.drop (l.takeWhile Char.isDigit).length with
     | c :: _ => decide (c = '.')
     | [] => false)

/-- The line matches `^\(\d+\)\s*`. -/
def hasParenMark (l : List Char) : Bool :=
  match l with
  | [] => false
  | c :: rest =>
    decide (c = '(') &&
      (!(rest.takeWhile Char.isDigit).isEmpty &&
        (match rest.drop (rest.takeWhile Char.isDigit).length with
         | c2 :: _ => decide (c2 = ')')
         | [] => false))

/-! ### Literal readings of the spec sentences (for refinement checks) -/

/-- The literal reading of C2's sentence: on a line matching `^\d+\.\s*` or
`^\(\d+\)\s*`, exactly one such numeric prefix is removed (and the result is
trimmed, as the scenarios require). -/
def cleanStepSpecOneNumeric (l : List Char) : List Char :=
  if hasNumMark l then pyStrip (subNum l)
  else if hasParenMark l then pyStrip (subParen l)
  else pyStrip l

/-- The literal reading of C3's sentence: on a line matching `^[•\-*→»]\s*`,
exactly the matched prefix (one bullet character plus following whitespace)
is stripped and the remainder trimmed, nothing else removed. -/
def cleanStepSpecBullet (l : List Char) : List Char :=
  match l with
  | [] => []
  | c :: rest =>
    if c = '•' ∨ c = '-' ∨ c = '*' ∨ c = '→' ∨ c = '»'
    then pyStrip (rest.dropWhile isPySpace)
    else pyStrip (c :: rest)

/-! ### Python `text.split("\n")` -/

def splitOnNlAux : List Char → List Char → List String
  | [], acc => [String.mk acc.reverse]
  | c :: rest, acc =>
    if c = '\n' then String.mk acc.reverse :: splitOnNlAux rest []
    else splitOnNlAux rest (c :: acc)

/-- Python `text.split("\n")`: splits on every newline; the empty string
yields `[""]`. -/
def splitLines (s : String) : List String := splitOnNlAux s.data []

/-! ### `ai_call` (src/app.py lines 40-59)

The Groq SDK is modelled by an oracle `transport` mapping the request to
either a transport failure (a raised exception) or a response value.  A
response's `choices[0].message.content` chain is modelled by
`responseText`: `none` models any shape failure of the chain (empty
`choices`, missing `content`), which in Python raises `IndexError` or
`AttributeError` inside the `try`.  Note that in the source the
`client.chat.completions.create(...)` call itself stands OUTSIDE the
`try`, so a transport failure propagates.
-/

structure ChatMessage where
  content : Option String
deriving DecidableEq

structure ChatChoice where
  message : ChatMessage
deriving DecidableEq

structure ChatResponse where
  choices : List ChatChoice
deriving DecidableEq

structure ChatRequest where
  model : String
  userContent : String
deriving DecidableEq

/-- `response.choices[0].message.content`, `none` on any shape failure. -/
def responseText (r : ChatResponse) : Option String :=
  r.choices.head?.bind fun ch => ch.message.content

/-- Model of Python `str(response)`. -/
def strOfResponse (r : ChatResponse) : String :=
  "ChatCompletion(choices=" ++ toString r.choices.length ++ ")"

/-- The fixed placeholder returned when no credential is configured. -/
def aiPlaceholder : String :=
  "AI unavailable — add your GROQ_API_KEY in .streamlit/secrets.toml to enable AI features."

/-- `ai_call` from src/app.py.  `client` is `none` when reading the API key
from secrets failed at startup.  An `Except.error` result models an
exception escaping to the caller. -/
def ai_call (client : Option Unit) (transport : ChatRequest → Except Unit ChatResponse)
    (prompt : String) : Except Unit String :=
  match client with
  | none => Except.ok aiPlaceholder
  | some _ =>
    match transport ⟨"llama-3.1-8b-instant", prompt⟩ with
    | Except.error e => Except.error e
    | Except.ok response =>
      match responseText response with
      | some t => Except.ok (pyStripStr t)
      | none =>
        match responseText response with
        | some t => Except.ok (pyStripStr t)
        | none => Except.ok (strOfResponse response)

/-! ### `extract_text_from_pdf` (src/app.py lines 89-103)

A loaded document is modelled as `Except Unit (List (Except Unit String))`:
`Except.error` at the outer level models `PyPDF2.PdfReader` raising, the
inner level models `page.extract_text()` raising per page; a page's empty
string result models "no extractable text on this page" (falsy in the
source's `if p:` test).
-/

/-- The body of the page loop: failed pages are skipped, falsy (empty)
extraction results are skipped, otherwise the text plus a newline is
appended. -/
def extractPageFold (text : String) (pres : Except Unit String) : String :=
  match pres with
  | Except.error _ => text
  | Except.ok p => if p = "" then text else text ++ p ++ "\n"

/-- `extract_text_from_pdf` from src/app.py. -/
def extract_text_from_pdf (doc : Except Unit (List (Except Unit String))) : String :=
  match doc with
  | Except.error _ => ""
  | Except.ok pages => pages.foldl extractPageFold ""

/-- The literal reading of C7's sentence: the concatenation over pages of
each page's extracted text followed by a newline, failed pages contributing
nothing. -/
def extractSpecC7 : List (Except Unit String) → String
  | [] => ""
  | pres :: rest =>
    (match pres with
     | Except.error _ => ""
     | Except.ok p => p ++ "\n") ++ extractSpecC7 rest

/-- What the code actually concatenates: as `extractSpecC7`, but a page
whose extraction succeeds with empty text also contributes nothing. -/
def extractCodeConcat : List (Except Unit String) → String
  | [] => ""
  | pres :: rest =>
    (match pres with
     | Except.error _ => ""
     | Except.ok p => if p = "" then "" else p ++ "\n") ++ extractCodeConcat rest

/-! ### Session state and the button handlers (src/app.py lines 106-299)

Each handler is modelled as a function from the session state and the
widget inputs to the new state plus the inline message it renders.
Monetary amounts are modelled as `Rat` (the source stores Python floats;
no arithmetic on them is at issue in the claims).
-/

structure Expense where
  date : String
  description : String
  amount : Rat
  category : String
deriving DecidableEq

structure Session where
  todos : List String
  finance : List Expense
  cleaned_notes : String
deriving DecidableEq

inductive Msg where
  | success (text : String)
  | error (text : String)
  | info (text : String)
  | steps (items : List String)
deriving DecidableEq

def initSession : Session := ⟨[], [], ""⟩

/-- The "Add Task" button handler (src/app.py lines 166-171). -/
def addTaskHandler (s : Session) (new_task : String) : Session × Msg :=
  if pyStripStr new_task ≠ "" then
    ({ s with todos := s.todos ++ [pyStripStr new_task] }, Msg.success "Task added.")
  else (s, Msg.error "Enter a task to add.")

/-- The "Generate Steps" button handler (src/app.py lines 137-153);
`raw_steps` is the oracle for the `ai_call` result. -/
def generateStepsHandler (s : Session) (main_task : String) (raw_steps : String) :
    Session × Msg :=
  if pyStripStr main_task ≠ "" then
    (s,
      if (((splitLines raw_steps).map clean_step).filter (fun cs => cs ≠ "")).isEmpty then
        Msg.info "No steps generated. Try rewording the task or check your API key."
      else Msg.steps (((splitLines raw_steps).map clean_step).filter (fun cs => cs ≠ "")))
  else (s, Msg.error "Please enter a task to generate steps.")

/-- The "Clean Notes" button handler (src/app.py lines 238-245); `cleaned`
is the oracle for the `ai_call` result. -/
def cleanNotesHandler (s : Session) (source_text : String) (cleaned : String) :
    Session × Msg :=
  if pyStripStr source_text ≠ "" then
    ({ s with cleaned_notes := cleaned }, Msg.success cleaned)
  else (s, Msg.error "Please upload a PDF or paste notes to clean.")

/-- The "Add Expense" button handler (src/app.py lines 273-280): it
performs no validation of its inputs. -/
def addExpenseHandler (s : Session) (date_input desc_input : String) (amt_input : Rat)
    (category_input : String) : Session × Msg :=
  ({ s with finance := s.finance ++ [⟨date_input, desc_input, amt_input, category_input⟩] },
    Msg.success "Expense added.")

/-! ### `generate_pdf` (src/app.py lines 76-84)

The FPDF library is modelled as a document builder: `multi_cell` renders
one wrapped paragraph cell and raises unless a page exists and a font has
been set; `output(dest="S")` serializes the document to a latin-1 string,
and `.encode("latin1")` turns it into bytes, raising on any character
outside latin-1.
-/

structure FPDFDoc where
  pages : Nat
  cells : List String
  autoBreak : Bool
  breakMargin : Nat
  font : Option (String × Nat)
deriving DecidableEq

def FPDF_new : FPDFDoc := ⟨0, [], false, 0, none⟩

def addPage (d : FPDFDoc) : FPDFDoc := { d with pages := d.pages + 1 }

def setAutoPageBreak (d : FPDFDoc) (auto : Bool) (margin : Nat) : FPDFDoc :=
  { d with autoBreak := auto, breakMargin := margin }

def setFont (d : FPDFDoc) (family : String) (size : Nat) : FPDFDoc :=
  { d with font := some (family, size) }

/-- `FPDF.multi_cell`: raises unless a font is set and a page exists. -/
def multiCell (d : FPDFDoc) (_w _h : Nat) (txt : String) : Except Unit FPDFDoc :=
  if d.font.isSome && decide (0 < d.pages) then
    Except.ok { d with cells := d.cells ++ [txt] }
  else Except.error ()

/-- Modelled serialization of `pdf.output(dest="S")`. -/
def outputS (d : FPDFDoc) : String :=
  "%PDF-1.3\n" ++ toString d.pages ++ " pages\n"
    ++ String.join (d.cells.map (fun c => c ++ "\n")) ++ "%%EOF"

/-- Python `str.encode("latin1")`: bytes on success, raises on characters
above U+00FF. -/
def encodeLatin1 (s : String) : Except Unit (List Nat) :=
  if s.data.all (fun c => c.toNat < 256) then Except.ok (s.data.map Char.toNat)
  else Except.error ()

/-- The builder state `generate_pdf` reaches just before `output`. -/
def generate_pdf_doc (text : String) : Except Unit FPDFDoc :=
  (splitLines text).foldlM (fun d line => multiCell d 0 10 line)
    (setFont (setAutoPageBreak (addPage FPDF_new) true 15) "Arial" 12)

/-- `generate_pdf` from src/app.py. -/
def generate_pdf (text : String) : Except Unit (List Nat) :=
  match generate_pdf_doc text with
  | Except.error e => Except.error e
  | Except.ok d => encodeLatin1 (outputS d)

/-- A minimal well-formedness check on serialized document bytes: non-empty,
carries the document header at the start and the end-of-file marker at the
end. -/
def validPdfBytes (bs : List Nat) : Bool :=
  !bs.isEmpty
    && (("%PDF-".data.map Char.toNat).isPrefixOf bs
    && (("%%EOF".data.map Char.toNat).reverse.isPrefixOf bs.reverse))

/-! ### Basic lemmas about the embedding -/

theorem inf_of_suf {α : Type} {l₁ l₂ : List α} (h : l₁ <:+ l₂) : l₁ <:+: l₂ := by
  obtain ⟨t, ht⟩ := h
  exact ⟨t, [], by simpa using ht⟩

theorem inf_of_pre {α : Type} {l₁ l₂ : List α} (h : l₁ <+: l₂) : l₁ <:+: l₂ := by
  obtain ⟨t, ht⟩ := h
  exact ⟨[], t, ht⟩

theorem lstrip_suffix (l : List Char) : lstrip l <:+ l :=
  List.dropWhile_suffix _

theorem rstrip_pre (l : List Char) : rstrip l <+: l := by
  apply List.reverse_suffix.mp
  rw [rstrip, List.reverse_reverse]
  exact List.dropWhile_suffix _

theorem pyStrip_inf (l : List Char) : pyStrip l <:+: l :=
  (inf_of_pre (rstrip_pre (lstrip l))).trans (inf_of_suf (lstrip_suffix l))

theorem dropWhile_eq_self_of_head {p : Char → Bool} {l : List Char}
    (h : ∀ c, l.head? = some c → p c = false) : l.dropWhile p = l := by
  cases l with
  | nil => rfl
  | cons c t => simp [List.dropWhile_cons, h c rfl]

theorem head_lstrip (l : List Char) (c : Char) (hc : (lstrip l).head? = some c) :
    isPySpace c = false := by
  have h := List.head?_dropWhile_not isPySpace l
  rw [show lstrip l = l.dropWhile isPySpace from rfl] at hc
  rw [hc] at h
  exact h

theorem head_of_pre {l₁ l₂ : List Char} (h : l₁ <+: l₂) (hne : l₁ ≠ []) :
    l₁.head? = l₂.head? := by
  obtain ⟨t, rfl⟩ := h
  cases l₁ with
  | nil => exact absurd rfl hne
  | cons c l => rfl

theorem head_pyStrip (l : List Char) (c : Char) (hc : (pyStrip l).head? = some c) :
    isPySpace c = false := by
  have hne : pyStrip l ≠ [] := by
    intro h
    rw [h] at hc
    exact Option.noConfusion hc
  have h := head_of_pre (rstrip_pre (lstrip l)) hne
  exact head_lstrip l c (h ▸ hc)

theorem last_rstrip (l : List Char) (c : Char) (hc : (rstrip l).getLast? = some c) :
    isPySpace c = false := by
  rw [rstrip, List.getLast?_reverse] at hc
  have h := List.head?_dropWhile_not isPySpace l.reverse
  rw [hc] at h
  exact h

theorem last_pyStrip (l : List Char) (c : Char) (hc : (pyStrip l).getLast? = some c) :
    isPySpace c = false :=
  last_rstrip (lstrip l) c hc

theorem lstrip_eq_self_of_head {l : List Char}
    (h : ∀ c, l.head? = some c → isPySpace c = false) : lstrip l = l :=
  dropWhile_eq_self_of_head h

theorem rstrip_eq_self_of_last {l : List Char}
    (h : ∀ c, l.getLast? = some c → isPySpace c = false) : rstrip l = l := by
  have hd : l.reverse.dropWhile isPySpace = l.reverse :=
    dropWhile_eq_self_of_head (fun c hc => h c (by rwa [List.head?_reverse] at hc))
  rw [rstrip, hd, List.reverse_reverse]

theorem pyStrip_idem (l : List Char) : pyStrip (pyStrip l) = pyStrip l := by
  rw [show pyStrip (pyStrip l) = rstrip (lstrip (pyStrip l)) from rfl]
  rw [lstrip_eq_self_of_head (head_pyStrip l)]
  exact rstrip_eq_self_of_last (last_pyStrip l)

/-! ### Suffix and identity facts for the three substitutions -/

theorem subBullet_suffix (l : List Char) : subBullet l <:+ l := by
  rw [subBullet.eq_def]
  split
  · exact List.suffix_refl _
  · split
    · exact (List.dropWhile_suffix _).trans (List.dropWhile_suffix _)
    · exact List.suffix_refl _

theorem subNum_suffix (l : List Char) : subNum l <:+ l := by
  rw [subNum.eq_def]
  split
  · exact List.suffix_refl _
  · split
    · next c rest heq =>
      split
      · have hd : c :: rest <:+ l := by
          rw [← heq]
          exact List.drop_suffix _ l
        exact ((List.dropWhile_suffix _).trans ⟨[c], rfl⟩).trans hd
      · exact List.suffix_refl _
    · exact List.suffix_refl _

theorem subParen_suffix (l : List Char) : subParen l <:+ l := by
  rw [subParen.eq_def]
  split
  · exact List.suffix_refl _
  · next c rest =>
    split
    · split
      · exact List.suffix_refl _
      · split
        · next c2 rest2 heq2 =>
          split
          · have hd : c2 :: rest2 <:+ rest := by
              rw [← heq2]
              exact List.drop_suffix _ rest
            have h1 : rest2.dropWhile isPySpace <:+ rest :=
              ((List.dropWhile_suffix _).trans ⟨[c2], rfl⟩).trans hd
            exact h1.trans ⟨[c], rfl⟩
          · exact List.suffix_refl _
        · exact List.suffix_refl _
    · exact List.suffix_refl _

theorem subBullet_id {l : List Char} (h : hasBulletMark l = false) : subBullet l = l := by
  rw [subBullet.eq_def]
  split
  · rfl
  · next c t =>
    rw [hasBulletMark] at h
    simp [h]

theorem subNum_id {l : List Char} (h : hasNumMark l = false) : subNum l = l := by
  rw [subNum.eq_def]
  split
  · rfl
  · next hni =>
    split
    · next c rest heq =>
      split
      · next hdot =>
        exfalso
        rw [hasNumMark, heq] at h
        simp [hdot, Bool.not_eq_true] at h
        exact hni (by simp [h])
      · rfl
    · rfl

theorem subParen_id {l : List Char} (h : hasParenMark l = false) : subParen l = l := by
  rw [subParen.eq_def]
  split
  · rfl
  · next c rest =>
    split
    · next hop =>
      split
      · rfl
      · next hni =>
        split
        · next c2 rest2 heq2 =>
          split
          · next hcp =>
            exfalso
            have hni2 : (rest.takeWhile Char.isDigit).isEmpty = false := by
              simpa using hni
            have ht : hasParenMark (c :: rest) = true := by
              simp [hasParenMark, hop, hni2, heq2, hcp]
            simp [ht] at h
          · rfl
        · rfl
    · rfl

/-! ### Which patterns can fire after which -/

theorem digit_not_bullet {c : Char} (h : c.isDigit = true) : isBulletChar c = false := by
  rw [isBulletChar, decide_eq_false_iff_not]
  rintro (rfl | rfl | rfl | rfl | rfl | rfl | rfl) <;> exact absurd h (by decide)

theorem head_digit_of_num {l : List Char} (h : hasNumMark l = true) :
    ∃ c t, l = c :: t ∧ c.isDigit = true := by
  cases l with
  | nil => simp [hasNumMark] at h
  | cons c t =>
    refine ⟨c, t, rfl, ?_⟩
    by_contra hc
    have hc2 : c.isDigit = false := by simpa using hc
    simp [hasNumMark, List.takeWhile_cons, hc2] at h

theorem head_paren_of_paren {l : List Char} (h : hasParenMark l = true) :
    ∃ rest, l = '(' :: rest := by
  cases l with
  | nil => simp [hasParenMark] at h
  | cons c rest =>
    have hc : c = '(' := by
      by_contra hne
      simp [hasParenMark, hne] at h
    exact ⟨rest, by rw [hc]⟩

theorem subBullet_of_mark {l : List Char} (h : hasBulletMark l = true) :
    subBullet l = (l.dropWhile isBulletChar).dropWhile isPySpace := by
  cases l with
  | nil => simp [hasBulletMark] at h
  | cons c t =>
    rw [hasBulletMark] at h
    simp [subBullet, h]

theorem cleanStepL_of_num {l : List Char} (h : hasNumMark l = true) :
    cleanStepL l = pyStrip (subParen (subNum l)) := by
  obtain ⟨c, t, rfl, hd⟩ := head_digit_of_num h
  rw [cleanStepL, subBullet_id]
  rw [hasBulletMark]
  exact digit_not_bullet hd

theorem cleanStepL_of_paren {l : List Char} (h : hasParenMark l = true) :
    cleanStepL l = pyStrip (subParen l) := by
  obtain ⟨rest, rfl⟩ := head_paren_of_paren h
  rw [cleanStepL, subBullet_id, subNum_id]
  · simp [hasNumMark, List.takeWhile_cons, show Char.isDigit '(' = false from by decide]
  · rw [hasBulletMark]
    decide

/-! ### Claim C2 -/

/-- **C2** (amended).  A line matching `^\(\d+\)\s*` has exactly that prefix
removed (then trimmed).  A line matching `^\d+\.\s*` has that prefix removed
and then, if the remainder matches `^\(\d+\)\s*`, that prefix is removed as
well (then trimmed).  The two scenario cases hold as stated. -/
theorem clean_step_numeric (s : String) :
    (hasParenMark s.data = true → clean_step s = String.mk (pyStrip (subParen s.data))) ∧
    (hasNumMark s.data = true →
      clean_step s = String.mk (pyStrip (subParen (subNum s.data)))) ∧
    clean_step "1. Buy milk" = "Buy milk" ∧
    clean_step "(2) Call mentor" = "Call mentor" := by
  refine ⟨?_, ?_, by decide, by decide⟩
  · intro h
    show String.mk (cleanStepL s.data) = _
    rw [cleanStepL_of_paren h]
  · intro h
    show String.mk (cleanStepL s.data) = _
    rw [cleanStepL_of_num h]

/-- Witness for `clean_step_numeric` at concrete inputs. -/
theorem clean_step_numeric_witness :
    clean_step "12. go" = String.mk (pyStrip (subParen (subNum ("12. go").data))) ∧
    clean_step "(7) go" = String.mk (pyStrip (subParen ("(7) go").data)) :=
  ⟨(clean_step_numeric "12. go").2.1 (by decide),
   (clean_step_numeric "(7) go").1 (by decide)⟩

/-- **C2** fails as stated: on `"1. (2) Go"` the code removes BOTH numeric
prefixes, while removing exactly one leaves `"(2) Go"`. -/
theorem clean_step_numeric_cex :
    clean_step "1. (2) Go" = "Go" ∧
    String.mk (cleanStepSpecOneNumeric ("1. (2) Go").data) = "(2) Go" ∧
    ("Go" : String) ≠ "(2) Go" :=
  ⟨by decide, by decide, by decide⟩

/-! ### Claim C3 -/

/-- **C3** (amended).  On a line starting with a bullet/arrow character, the
code strips the MAXIMAL run of bullet characters plus the following
whitespace, and afterwards also removes a numeric `N.` prefix and then a
`(N)` prefix from the remainder when present, before trimming. -/
theorem clean_step_bullet (s : String) (h : hasBulletMark s.data = true) :
    clean_step s = String.mk (pyStrip (subParen (subNum
      ((s.data.dropWhile isBulletChar).dropWhile isPySpace)))) := by
  show String.mk (cleanStepL s.data) = _
  rw [cleanStepL, subBullet_of_mark h]

/-- Witness for `clean_step_bullet` at a concrete input. -/
theorem clean_step_bullet_witness :
    clean_step "-- hi" = String.mk (pyStrip (subParen (subNum
      ((("-- hi").data.dropWhile isBulletChar).dropWhile isPySpace)))) :=
  clean_step_bullet "-- hi" (by decide)

/-- **C3** fails as stated: on `"- 1. Go"` stripping exactly the matched
bullet prefix and trimming would give `"1. Go"`, but the code also removes
the numeric prefix of the remainder and returns `"Go"`. -/
theorem clean_step_bullet_cex :
    clean_step "- 1. Go" = "Go" ∧
    String.mk (cleanStepSpecBullet ("- 1. Go").data) = "1. Go" ∧
    ("Go" : String) ≠ "1. Go" :=
  ⟨by decide, by decide, by decide⟩

/-! ### Claim C4 -/

/-- **C4**.  Once the cleaned line contains no further matching prefix,
`clean_step` is idempotent: a second application returns the line
unchanged. -/
theorem clean_step_idem (s : String)
    (h1 : hasBulletMark (clean_step s).data = false)
    (h2 : hasNumMark (clean_step s).data = false)
    (h3 : hasParenMark (clean_step s).data = false) :
    clean_step (clean_step s) = clean_step s := by
  show String.mk (cleanStepL (clean_step s).data) = clean_step s
  rw [cleanStepL, subBullet_id h1, subNum_id h2, subParen_id h3]
  show String.mk (pyStrip (pyStrip (subParen (subNum (subBullet s.data))))) = clean_step s
  rw [pyStrip_idem]
  rfl

/-- Witness for `clean_step_idem` at a concrete input. -/
theorem clean_step_idem_witness :
    clean_step (clean_step "3. Review notes") = clean_step "3. Review notes" :=
  clean_step_idem "3. Review notes" (by decide) (by decide) (by decide)

/-! ### Claim C10 -/

/-- **C10**.  The output of `clean_step` is a contiguous substring of the
input (characters are only deleted from the front, plus whitespace trimming
at both ends; nothing is inserted, reordered, or altered), and it carries no
leading or trailing whitespace. -/
theorem clean_step_shape (s : String) :
    (clean_step s).data <:+: s.data ∧
    pyStripStr (clean_step s) = clean_step s ∧
    (∀ c, (clean_step s).data.head? = some c → isPySpace c = false) ∧
    (∀ c, (clean_step s).data.getLast? = some c → isPySpace c = false) := by
  refine ⟨?_, ?_, ?_, ?_⟩
  · show cleanStepL s.data <:+: s.data
    exact (pyStrip_inf _).trans (inf_of_suf ((subParen_suffix _).trans
      ((subNum_suffix _).trans (subBullet_suffix _))))
  · show String.mk (pyStrip (pyStrip (subParen (subNum (subBullet s.data))))) = clean_step s
    rw [pyStrip_idem]
    rfl
  · exact fun c hc => head_pyStrip (subParen (subNum (subBullet s.data))) c hc
  · exact fun c hc => last_pyStrip (subParen (subNum (subBullet s.data))) c hc

/-- Witness for `clean_step_shape` at a concrete input. -/
theorem clean_step_shape_witness :
    (clean_step "1. Buy milk").data <:+: ("1. Buy milk").data ∧
    isPySpace 'B' = false :=
  ⟨(clean_step_shape "1. Buy milk").1,
   (clean_step_shape "1. Buy milk").2.2.1 'B' (by decide)⟩

/-! ### Claim C5 -/

/-- **C5**.  With no credential configured (`client = none`), `ai_call`
returns the same fixed placeholder string for every prompt and every
transport behaviour. -/
theorem ai_call_placeholder (transport : ChatRequest → Except Unit ChatResponse)
    (prompt : String) :
    ai_call none transport prompt = Except.ok aiPlaceholder := rfl

/-! ### Claim C1 -/

/-- **C1** (amended).  With a credential configured, `ai_call` never raises
during response parsing: on any response-shape failure it falls back to the
secondary parse path and, failing that, returns `str(response)`.  But a
transport failure in the `create` call itself — which stands outside the
`try` — propagates to the caller as an exception. -/
theorem ai_call_error_paths (r : ChatResponse) (e : Unit) (prompt : String) :
    ai_call (some ()) (fun _ => Except.ok r) prompt =
      Except.ok (match responseText r with
        | some t => pyStripStr t
        | none => strOfResponse r) ∧
    ai_call (some ()) (fun _ => Except.error e) prompt = Except.error e := by
  constructor
  · cases hr : responseText r <;> simp [ai_call, hr]
  · rfl

/-- **C1** fails as stated: a transport failure raises to the caller. -/
theorem ai_call_raises_cex :
    ai_call (some ()) (fun _ => Except.error ()) "ping" = Except.error () := rfl

/-! ### Claim C6 -/

/-- Pages that raise or yield falsy text leave the accumulator unchanged. -/
theorem extract_fold_skip (pages : List (Except Unit String)) (acc : String)
    (h : ∀ pres ∈ pages, pres = Except.error () ∨ pres = Except.ok "") :
    pages.foldl extractPageFold acc = acc := by
  induction pages generalizing acc with
  | nil => rfl
  | cons hd tl ih =>
    have hhd := h hd (by simp)
    have htl : ∀ pres ∈ tl, pres = Except.error () ∨ pres = Except.ok "" :=
      fun pres hm => h pres (by simp [hm])
    rcases hhd with rfl | rfl
    · rw [List.foldl_cons]
      exact ih acc htl
    · rw [List.foldl_cons]
      exact ih acc htl

/-- **C6**.  On a document with zero extractable pages — the reader raised,
or every page either raised on extraction or yielded no text —
`extract_text_from_pdf` returns the empty string (and, being a total
function of the modelled outcomes, never raises). -/
theorem extract_empty (doc : Except Unit (List (Except Unit String)))
    (h : ∀ pages, doc = Except.ok pages →
      ∀ pres ∈ pages, pres = Except.error () ∨ pres = Except.ok "") :
    extract_text_from_pdf doc = "" := by
  cases doc with
  | error e => rfl
  | ok pages => exact extract_fold_skip pages "" (h pages rfl)

/-- Witness for `extract_empty` at a concrete document. -/
theorem extract_empty_witness :
    extract_text_from_pdf (Except.ok [Except.error (), Except.ok ""]) = "" := by
  apply extract_empty
  intro pages hp
  injection hp with hp2
  subst hp2
  intro pres hm
  simp only [List.mem_cons, List.not_mem_nil, or_false] at hm
  rcases hm with rfl | rfl
  · exact Or.inl rfl
  · exact Or.inr rfl

/-! ### Claim C7 -/

/-- The page loop, started from any accumulator, appends exactly the code's
page-by-page concatenation. -/
theorem extract_fold_append (pages : List (Except Unit String)) (acc : String) :
    pages.foldl extractPageFold acc = acc ++ extractCodeConcat pages := by
  induction pages generalizing acc with
  | nil => simp [extractCodeConcat]
  | cons hd tl ih =>
    rw [List.foldl_cons, ih]
    cases hd with
    | error e => simp [extractPageFold, extractCodeConcat]
    | ok p =>
      by_cases hp : p = ""
      · simp [extractPageFold, extractCodeConcat, hp]
      · simp [extractPageFold, extractCodeConcat, hp, String.append_assoc]

/-- **C7** (amended).  On a readable document the extractor visits pages in
order and returns, concatenated, each page's text followed by a newline —
for the pages whose extraction succeeds with NON-EMPTY text; pages whose
extraction fails, and pages whose extraction succeeds with empty text,
contribute nothing. -/
theorem extract_concat (pages : List (Except Unit String)) :
    extract_text_from_pdf (Except.ok pages) = extractCodeConcat pages := by
  show pages.foldl extractPageFold "" = extractCodeConcat pages
  rw [extract_fold_append]
  simp

/-- **C7** fails as stated: a page whose extraction succeeds with empty text
should contribute `"" ++ "\n"` by the claim's letter, but the code's `if p:`
test skips it. -/
theorem extract_concat_cex :
    extract_text_from_pdf (Except.ok [Except.ok ""]) = "" ∧
    extractSpecC7 [Except.ok ""] = "\n" ∧
    ("" : String) ≠ "\n" :=
  ⟨rfl, rfl, by decide⟩

/-! ### Claim C8 -/

/-- **C8** (amended).  The add-task, generate-steps and clean-notes actions
reject empty input with an inline error message and leave the session state
unmutated; the add-expense action, however, performs no input validation
and always appends the record, even with an empty description. -/
theorem handlers_reject_empty :
    (∀ s task, pyStripStr task = "" →
      addTaskHandler s task = (s, Msg.error "Enter a task to add.")) ∧
    (∀ s task raw, pyStripStr task = "" →
      generateStepsHandler s task raw =
        (s, Msg.error "Please enter a task to generate steps.")) ∧
    (∀ s src cleaned, pyStripStr src = "" →
      cleanNotesHandler s src cleaned =
        (s, Msg.error "Please upload a PDF or paste notes to clean.")) ∧
    (∀ s d desc amt cat,
      (addExpenseHandler s d desc amt cat).1.finance = s.finance ++ [⟨d, desc, amt, cat⟩]) := by
  refine ⟨?_, ?_, ?_, ?_⟩ <;> intros <;>
    simp [addTaskHandler, generateStepsHandler, cleanNotesHandler, addExpenseHandler, *]

/-- Witness for `handlers_reject_empty` at concrete inputs. -/
theorem handlers_reject_empty_witness :
    addTaskHandler initSession "   " = (initSession, Msg.error "Enter a task to add.") ∧
    (addExpenseHandler initSession "2024-01-01" "Bus" 1 "Travel").1.finance =
      initSession.finance ++ [⟨"2024-01-01", "Bus", 1, "Travel"⟩] :=
  ⟨handlers_reject_empty.1 initSession "   " (by decide),
   handlers_reject_empty.2.2.2 initSession "2024-01-01" "Bus" 1 "Travel"⟩

/-- **C8** fails as stated: submitting an expense with an empty description
(malformed/empty input) is not rejected — the record is appended to the
session's finance list and a success message is shown. -/
theorem add_expense_unvalidated_cex :
    (addExpenseHandler initSession "2024-01-01" "" 0 "Food").1 ≠ initSession ∧
    (addExpenseHandler initSession "2024-01-01" "" 0 "Food").2 =
      Msg.success "Expense added." := by
  constructor
  · intro h
    have := congrArg Session.finance h
    simp [addExpenseHandler, initSession] at this
  · rfl

/-! ### Claim C9 -/

/-- The cell loop never fails once a page exists and a font is set, and it
renders exactly the given lines as cells, in order. -/
theorem foldlM_multiCell (lines : List String) (d : FPDFDoc)
    (hf : d.font.isSome = true) (hp : 0 < d.pages) :
    ∃ d2, lines.foldlM (fun a line => multiCell a 0 10 line) d = Except.ok d2 ∧
      d2.cells = d.cells ++ lines ∧ d2.pages = d.pages ∧ d2.font = d.font := by
  induction lines generalizing d with
  | nil => exact ⟨d, rfl, by simp, rfl, rfl⟩
  | cons hd tl ih =>
    have hm : multiCell d 0 10 hd = Except.ok { d with cells := d.cells ++ [hd] } := by
      simp [multiCell, hf, hp]
    obtain ⟨d2, h1, h2, h3, h4⟩ := ih { d with cells := d.cells ++ [hd] } hf hp
    refine ⟨d2, ?_, by simp [h2], h3, h4⟩
    rw [List.foldlM_cons, hm]
    simpa using h1

/-- **C9**.  `generate_pdf` applied to the empty string does not raise and
returns the bytes of a well-formed minimal document; and for every input
text the builder renders each line of the input as its own wrapped paragraph
cell, in order, blank lines included as empty cells. -/
theorem generate_pdf_spec :
    (∃ bs, generate_pdf "" = Except.ok bs ∧ validPdfBytes bs = true) ∧
    (∀ text, ∃ d, generate_pdf_doc text = Except.ok d ∧
      d.cells = splitLines text ∧ 0 < d.pages) := by
  constructor
  · exact ⟨("%PDF-1.3\n1 pages\n\n%%EOF").data.map Char.toNat, by decide, by decide⟩
  · intro text
    obtain ⟨d, h1, h2, h3, _⟩ := foldlM_multiCell (splitLines text)
      (setFont (setAutoPageBreak (addPage FPDF_new) true 15) "Arial" 12) rfl (by decide)
    exact ⟨d, h1, by simpa using h2, by rw [h3]; decide⟩

end SCC
